import Mathlib

/-!
A shallow embedding of `controllers/imagerepository_controller.go`.
The source file carries two controller variants (an earlier and a later
revision of the same controller); definitions below are suffixed 1 / 2
where both variants are embedded.

Times and durations are Go int64 nanosecond counts, modelled as `Int`
(the values handled stay far from the int64 bounds, so wrap-around is
not modelled). Go string primitives (`strings.Split`, prefix and suffix
tests) are re-implemented over character lists so that all definitions
evaluate inside the kernel.
-/

namespace IRC

/- ### Go string primitives, over character lists -/

/-- Prefix test over character lists. -/
def chIsPre : List Char → List Char → Bool
  | [], _ => true
  | _ :: _, [] => false
  | p :: ps, c :: cs => p == c && chIsPre ps cs

/-- Splitting engine for `strings.Split`, with explicit fuel; every step
consumes at least one character, so the input length is enough fuel. -/
def chSplitFuel (sep : List Char) : Nat → List Char → List Char → List (List Char)
  | _, [], cur => [cur.reverse]
  | 0, s, cur => [cur.reverse ++ s]
  | fuel + 1, c :: cs, cur =>
    if chIsPre sep (c :: cs) then
      cur.reverse :: chSplitFuel sep fuel (cs.drop (sep.length - 1)) []
    else
      chSplitFuel sep fuel cs (c :: cur)

/-- Go `strings.Split`. -/
def goSplit (s sep : String) : List String :=
  if sep.data.isEmpty then
    s.data.map (fun c => String.mk [c])
  else
    (chSplitFuel sep.data s.data.length s.data []).map String.mk

/-- Go `strings.HasPrefix`. -/
def goHasPre (s pre : String) : Bool := chIsPre pre.data s.data

/-- Go `strings.HasSuffix`. -/
def goHasSuf (s suf : String) : Bool := chIsPre suf.data.reverse s.data.reverse

/-- Go `strings.TrimPrefix`. -/
def goTrimPre (s pre : String) : String :=
  if chIsPre pre.data s.data then String.mk (s.data.drop pre.data.length) else s

/-- Go `strings.Join` with a separator. -/
def goJoin (sep : String) : List String → String
  | [] => ""
  | [x] => x
  | x :: y :: xs => x ++ sep ++ goJoin sep (y :: xs)

/-- Character membership in a string. -/
def goHasChar (s : String) (c : Char) : Bool := s.data.contains c

/-- Drop the first `n` characters of a string. -/
def goDrop (s : String) (n : Nat) : String := String.mk (s.data.drop n)

/- ### Constants of the controller -/

/-- `time.Second` in nanoseconds. -/
def timeSecond : Int := 1000000000

/-- Constant `CosignObjectRegex` (first variant, line 67). -/
def CosignObjectRegex : String := "^.*\\.sig$"

/-- Secret data key `certFile`. -/
def ClientCert : String := "certFile"

/-- Secret data key `keyFile`. -/
def ClientKey : String := "keyFile"

/-- Secret data key `caFile`. -/
def CACert : String := "caFile"

/-- Readiness reason `ReconciliationFailedReason` of the api package. -/
def ReconciliationFailedReason : String := "ReconciliationFailed"

/-- Readiness reason `ReconciliationSucceededReason` of the api package. -/
def ReconciliationSucceededReason : String := "ReconciliationSucceeded"

/- ### Data model -/

/-- `v1beta1.ScanResult`: tag count and scan time. -/
structure ScanResult where
  tagCount : Nat
  scanTime : Int
deriving DecidableEq

/-- `v1beta1.ImageRepositorySpec`, restricted to the fields the
controller reads. `interval` and `timeout` are durations. -/
structure ImageRepositorySpec where
  image : String
  interval : Int
  secretRef : Option String
  certSecretRef : Option String
  serviceAccountName : String
  exclusionList : List String
  suspend : Bool
deriving DecidableEq

/-- `v1beta1.ImageRepositoryStatus`, restricted to the fields touched
here. `ready` models the Ready condition as (status, reason, message). -/
structure ImageRepositoryStatus where
  canonicalImageName : String
  lastScanResult : Option ScanResult
  lastHandledReconcileRequest : String
  ready : Option (Bool × String × String)
deriving DecidableEq

/-- An `ImageRepository` object. `reconcileReq` is what
`meta.ReconcileAnnotationValue` extracts from the object's metadata: the
value of the reconcile-request marker when it is present. -/
structure ImageRepository where
  spec : ImageRepositorySpec
  status : ImageRepositoryStatus
  reconcileReq : Option String
deriving DecidableEq

/-- `SetImageRepositoryReadiness`: record the Ready condition on the
status. -/
def setReadiness (repo : ImageRepository) (st : Bool) (reason msg : String) :
    ImageRepository :=
  { repo with status := { repo.status with ready := some (st, reason, msg) } }

/- ### shouldScan, both variants -/

/-- `shouldScan` of the first controller variant (lines 443-482). `db`
is `r.Database.Tags`; the triple returned is (due, wait, error). -/
def shouldScan1 (db : String → Except String (List String))
    (repo : ImageRepository) (now : Int) : Bool × Int × Option String :=
  let scanInterval := repo.spec.interval
  match repo.status.lastScanResult with
  | none => (true, scanInterval, none)
  | some lastScanResult =>
    let lastScanTime := lastScanResult.scanTime
    let dueByReq : Bool :=
      match repo.reconcileReq with
      | some syncAt => syncAt != repo.status.lastHandledReconcileRequest
      | none => false
    if dueByReq then (true, scanInterval, none)
    else
      match db repo.status.canonicalImageName with
      | .error e => (false, scanInterval, some e)
      | .ok tags =>
        if tags.length == 0 then (true, scanInterval, none)
        else
          let w := scanInterval - (now - lastScanTime)
          if w < timeSecond then (true, scanInterval, none)
          else (false, w, none)

/-- `shouldScan` of the second controller variant (lines 933-972). -/
def shouldScan2 (db : String → Except String (List String))
    (repo : ImageRepository) (now : Int) : Bool × Int × Option String :=
  let scanInterval := repo.spec.interval
  match repo.status.lastScanResult with
  | none => (true, scanInterval, none)
  | some lastScanResult =>
    let lastScanTime := lastScanResult.scanTime
    let dueByReq : Bool :=
      match repo.reconcileReq with
      | some syncAt => syncAt != repo.status.lastHandledReconcileRequest
      | none => false
    if dueByReq then (true, scanInterval, none)
    else
      match db repo.status.canonicalImageName with
      | .error e => (false, scanInterval, some e)
      | .ok tags =>
        if tags.length == 0 then (true, scanInterval, none)
        else
          let w := scanInterval - (now - lastScanTime)
          if w < timeSecond then (true, scanInterval, none)
          else (false, w, none)

/- ### Reference parsing -/

/-- Result of go-containerregistry reference parsing: registry host,
repository path and optional tag. -/
structure ParsedRef where
  registryStr : String
  repositoryStr : String
  tag : Option String
deriving DecidableEq

/-- `ref.Context().String()`: the canonical registry/repository name. -/
def ParsedRef.contextString (r : ParsedRef) : String :=
  r.registryStr ++ "/" ++ r.repositoryStr

/-- Modelled from the spec: `name.ParseReference` of the registry-client
capability (go-containerregistry, not part of this repository). The
image string is parsed into `(registryHost, repositoryPath)` plus an
optional trailing `:tag`; the registry host is the first path component
when that component holds a dot, and the Docker Hub default registry
with a `library/` repository prefix otherwise. -/
def parseReferenceModel (url : String) : Except String ParsedRef :=
  let splitTag (path : String) : Except String (String × Option String) :=
    match goSplit path ":" with
    | [repo] => .ok (repo, none)
    | [repo, t] => .ok (repo, some t)
    | _ => .error ("could not parse reference: " ++ url)
  match goSplit url "/" with
  | [] => .error ("could not parse reference: " ++ url)
  | first :: rest =>
    if goHasChar first '.' && rest.length > 0 then
      match splitTag (goJoin "/" rest) with
      | .error e => .error e
      | .ok (repo, t) => .ok { registryStr := first, repositoryStr := repo, tag := t }
    else
      match splitTag url with
      | .error e => .error e
      | .ok (repo, t) =>
        .ok { registryStr := "index.docker.io", repositoryStr := "library/" ++ repo, tag := t }

/-- Message of the scheme check in `parseImageReference`; the Go text
wraps the scheme in single quotes, omitted here. -/
def schemeErrMsg (scheme : String) : String :=
  ".spec.image value should not start with URL scheme; remove " ++ scheme ++ "://"

/-- Message of the tag check in `parseImageReference`. -/
def tagErrMsg (t : String) : String :=
  ".spec.image value should not contain a tag; remove :" ++ t

/-- `parseImageReference` (first variant, lines 213-229), with the
library reference parser supplied by `parseReferenceModel`. -/
def parseImageReference (url : String) : Except String ParsedRef :=
  let s := goSplit url "://"
  if s.length > 1 then
    .error (schemeErrMsg (s.headD ""))
  else
    match parseReferenceModel url with
    | .error e => .error e
    | .ok ref =>
      let imageName := goTrimPre url ref.registryStr
      let s2 := goSplit imageName ":"
      if s2.length > 1 then
        .error (tagErrMsg (s2[1]?.getD ""))
      else
        .ok ref

/- ### Registry-credential key normalization -/

/-- Modelled from the spec: `net/url` parsing reduced to taking the host
component, the text between the scheme and the first slash. -/
def urlHostModel (s : String) : String :=
  let rest :=
    if goHasPre s "https://" then goDrop s 8
    else if goHasPre s "http://" then goDrop s 7
    else s
  (goSplit rest "/").headD ""

/-- `getURLHost` (first variant, lines 596-623; identical in the
second). The long invalid-key message of the source is abbreviated. -/
def getURLHost (urlStr : String) : Except String String :=
  if urlStr == "http://" || urlStr == "https://" then
    .error "Empty url"
  else
    let u :=
      if !(goHasPre urlStr "http://") && !(goHasPre urlStr "https://") then
        "https://" ++ urlStr ++ "/"
      else urlStr
    let host := urlHostModel u
    if host == "" then
      .error ("Invalid registry auth key: " ++ u)
    else
      .ok host

/- ### Secrets, transports and authenticators -/

/-- An opaque registry authenticator. -/
abbrev Auth := String

/-- An opaque multi-secret keychain. -/
abbrev Keychain := String

/-- An opaque parsed client certificate. -/
abbrev Cert := String

/-- An opaque certificate pool. -/
abbrev CertPool := List String

/-- The credentials entry of one auths key in a dockerconfig document. -/
abbrev AuthConfig := String

/-- `tls.Config`, restricted to the fields the controller sets. -/
structure TLSConfig where
  certificates : List Cert
  rootCAs : Option CertPool
deriving DecidableEq

/-- `http.Transport`, restricted to its TLS client configuration. -/
structure Transport where
  tlsClientConfig : TLSConfig
deriving DecidableEq

/-- A Kubernetes secret: name, type, and the data map. -/
structure Secret where
  name : String
  type : String
  data : List (String × String)
deriving DecidableEq

/-- Lookup in a secret's data map. -/
def Secret.get? (s : Secret) (k : String) : Option String :=
  (s.data.find? (fun kv => kv.1 == k)).map (fun kv => kv.2)

/-- A service account, restricted to its image pull secret names. -/
structure ServiceAccount where
  imagePullSecrets : List String
deriving DecidableEq

/-- `transportFromSecret` (first variant, lines 407-438; identical in
the second). `keyPair` models `tls.X509KeyPair`, `sysPool` models
`x509.SystemCertPool`, `appendPEM` models `AppendCertsFromPEM`. -/
def transportFromSecret (keyPair : String → String → Except String Cert)
    (sysPool : Except String CertPool)
    (appendPEM : CertPool → String → CertPool)
    (certSecret : Secret) : Except String Transport :=
  let tls0 : TLSConfig := { certificates := [], rootCAs := none }
  let step1 : Except String TLSConfig :=
    match certSecret.get? ClientCert with
    | some clientCert =>
      match certSecret.get? ClientKey with
      | some clientKey =>
        match keyPair clientCert clientKey with
        | .error e => .error e
        | .ok cert => .ok { tls0 with certificates := tls0.certificates ++ [cert] }
      | none => .error "client certificate found, but no key"
    | none => .ok tls0
  match step1 with
  | .error e => .error e
  | .ok tls1 =>
    match certSecret.get? CACert with
    | some caCert =>
      match sysPool with
      | .error e => .error e
      | .ok syscerts =>
        .ok { tlsClientConfig := { tls1 with rootCAs := some (appendPEM syscerts caCert) } }
    | none => .ok { tlsClientConfig := tls1 }

/-- `parseAuthMap` (lines 582-594): normalize every auths key through
`getURLHost`, keeping the associated credentials. -/
def parseAuthMap : List (String × AuthConfig) → Except String (List (String × AuthConfig))
  | [] => .ok []
  | (url, entry) :: rest =>
    match getURLHost url with
    | .error e => .error e
    | .ok host =>
      match parseAuthMap rest with
      | .error e => .error e
      | .ok m => .ok ((host, entry) :: m)

/-- `authFromSecret` (lines 497-519). `decode` models the JSON decoding
of the `.dockerconfigjson` payload into the auths map. -/
def authFromSecret (decode : String → Except String (List (String × AuthConfig)))
    (secret : Secret) (registryStr : String) : Except String Auth :=
  if secret.type == "kubernetes.io/dockerconfigjson" then
    let configData := (secret.get? ".dockerconfigjson").getD ""
    match decode configData with
    | .error e => .error e
    | .ok auths =>
      match parseAuthMap auths with
      | .error e => .error e
      | .ok authMap =>
        match (authMap.find? (fun kv => kv.1 == registryStr)).map (fun kv => kv.2) with
        | none => .error ("auth for " ++ registryStr ++ " not found in secret " ++ secret.name)
        | some a => .ok a
  else
    .error ("unknown secret type " ++ secret.type)

/- ### The scan pass of the first variant -/

/-- An option handed to the remote listing call. -/
inductive RemoteOption where
  | withAuth : Auth → RemoteOption
  | withTransport : Transport → RemoteOption
  | withKeychain : Keychain → RemoteOption
  | withContext : RemoteOption
deriving DecidableEq

/-- The external collaborators of `scan` (first variant): client reads,
provider login, TLS and keychain construction, registry listing, regex
compilation, database writes and the clock. `σ` is the database state. -/
structure ScanEnv (σ : Type) where
  getSecret : String → Except String Secret
  decode : String → Except String (List (String × AuthConfig))
  login : Except String (Option Auth)
  getServiceAccount : String → Except String ServiceAccount
  k8schain : List Secret → Except String Keychain
  keyPair : String → String → Except String Cert
  sysPool : Except String CertPool
  appendPEM : CertPool → String → CertPool
  remoteList : List RemoteOption → Except String (List String)
  compile : String → Option (String → Bool)
  setTags : σ → String → List String → Except String σ
  timeNow : Int

/-- The pull-secret fetch loop of the service-account branch (lines
316-336): the secrets are fetched in order, the first failure aborts. -/
def fetchPullSecrets (getSecret : String → Except String Secret) :
    List String → Except String (List Secret)
  | [] => .ok []
  | n :: ns =>
    match getSecret n with
    | .error e => .error e
    | .ok s =>
      match fetchPullSecrets getSecret ns with
      | .error e => .error e
      | .ok ss => .ok (s :: ss)

/-- The part of `scan` (first variant) before the registry listing:
authentication (lines 236-270), certificate transport (272-297) and
service-account keychain (299-345), then `WithContext` (347). On an
early return the error carries the repository as returned, marked
not-ready where the source marks it. -/
def scanPreList {σ : Type} (env : ScanEnv σ) (repo : ImageRepository) (ref : ParsedRef) :
    Except (ImageRepository × String) (List RemoteOption) :=
  let authStep : Except (ImageRepository × String) (Option Auth × Option Secret) :=
    match repo.spec.secretRef with
    | some sname =>
      match env.getSecret sname with
      | .error e => .error (setReadiness repo false ReconciliationFailedReason e, e)
      | .ok authSecret =>
        match authFromSecret env.decode authSecret ref.registryStr with
        | .error e => .error (setReadiness repo false ReconciliationFailedReason e, e)
        | .ok a => .ok (some a, some authSecret)
    | none =>
      match env.login with
      | .error e => .error (setReadiness repo false ReconciliationFailedReason e, e)
      | .ok a => .ok (a, none)
  match authStep with
  | .error r => .error r
  | .ok (auth, authSecret) =>
    let options : List RemoteOption :=
      match auth with
      | some a => [RemoteOption.withAuth a]
      | none => []
    let certStep : Except (ImageRepository × String) (List RemoteOption) :=
      match repo.spec.certSecretRef with
      | some cname =>
        let fetched : Except (ImageRepository × String) Secret :=
          match repo.spec.secretRef with
          | some sname =>
            if sname == cname then
              .ok (authSecret.getD { name := "", type := "", data := [] })
            else
              match env.getSecret cname with
              | .error e => .error (setReadiness repo false ReconciliationFailedReason e, e)
              | .ok s => .ok s
          | none =>
            match env.getSecret cname with
            | .error e => .error (setReadiness repo false ReconciliationFailedReason e, e)
            | .ok s => .ok s
        match fetched with
        | .error r => .error r
        | .ok certSecret =>
          match transportFromSecret env.keyPair env.sysPool env.appendPEM certSecret with
          | .error e => .error (repo, e)
          | .ok tr => .ok (options ++ [RemoteOption.withTransport tr])
      | none => .ok options
    match certStep with
    | .error r => .error r
    | .ok options2 =>
      let saStep : Except (ImageRepository × String) (List RemoteOption) :=
        if repo.spec.serviceAccountName != "" then
          match env.getServiceAccount repo.spec.serviceAccountName with
          | .error e => .error (setReadiness repo false ReconciliationFailedReason e, e)
          | .ok sa =>
            if sa.imagePullSecrets.length > 0 then
              match fetchPullSecrets env.getSecret sa.imagePullSecrets with
              | .error e => .error (setReadiness repo false ReconciliationFailedReason e, e)
              | .ok secrets =>
                match env.k8schain secrets with
                | .error e => .error (repo, e)
                | .ok kc => .ok (options2 ++ [RemoteOption.withKeychain kc])
            else .ok options2
        else .ok options2
      match saStep with
      | .error r => .error r
      | .ok options3 => .ok (options3 ++ [RemoteOption.withContext])

/-- Exclusion-list defaulting (lines 362-364): an empty list becomes the
single cosign pattern. -/
def effectiveExclusionList (exl : List String) : List String :=
  if exl.length == 0 then exl ++ [CosignObjectRegex] else exl

/-- The per-pattern filtering loop (lines 366-377): each pattern is
compiled through the `compile` oracle (regexp.Compile with MatchString);
the tags of the original list not matching it are appended to the
accumulator. -/
def applyExclusionPatterns (compile : String → Option (String → Bool)) :
    List String → List String → List String → Except String (List String)
  | [], _, acc => .ok acc
  | p :: ps, tags, acc =>
    match compile p with
    | none => .error ("failed to compile regex " ++ p)
    | some m => applyExclusionPatterns compile ps tags (acc ++ tags.filter (fun t => !(m t)))

/-- Modelled from the spec: the default cosign exclusion pattern matches
exactly the tags carrying the `.sig` suffix. -/
def cosignMatch (t : String) : Bool := goHasSuf t ".sig"

/-- A compile oracle interpreting only the default cosign pattern. -/
def cosignCompile (p : String) : Option (String → Bool) :=
  if p == CosignObjectRegex then some cosignMatch else none

/-- The part of `scan` (first variant) after a successful listing
(lines 360-404): exclusion defaulting (written back into the spec, as
the source does), filtering, the database write, and the status
updates including the reconcile-request token consumption of lines
390-395. -/
def scanPostList {σ : Type} (env : ScanEnv σ) (repo : ImageRepository) (ref : ParsedRef)
    (store : σ) (tags : List String) : ImageRepository × σ × Option String :=
  let exl := effectiveExclusionList repo.spec.exclusionList
  let repoA := { repo with spec := { repo.spec with exclusionList := exl } }
  match applyExclusionPatterns env.compile exl tags [] with
  | .error e => (repoA, store, some e)
  | .ok filteredTags =>
    let canonicalName := ref.contextString
    match env.setTags store canonicalName filteredTags with
    | .error e => (repoA, store, some ("failed to set tags for " ++ canonicalName ++ ": " ++ e))
    | .ok store2 =>
      let repoB := { repoA with status := { repoA.status with
        lastScanResult := some { tagCount := filteredTags.length, scanTime := env.timeNow } } }
      let repoC :=
        match repoB.reconcileReq with
        | some token => { repoB with status := { repoB.status with
            lastHandledReconcileRequest := token } }
        | none => repoB
      let repoD := setReadiness repoC true ReconciliationSucceededReason
        ("successful scan, found " ++ toString filteredTags.length ++ " tags")
      (repoD, store2, none)

/-- `scan` of the first controller variant (lines 231-405), composed
from `scanPreList`, the listing call and `scanPostList`. The result is
the updated repository, the updated store and the returned error. -/
def scan1 {σ : Type} (env : ScanEnv σ) (repo : ImageRepository) (ref : ParsedRef)
    (store : σ) : ImageRepository × σ × Option String :=
  match scanPreList env repo ref with
  | .error (repoE, e) => (repoE, store, some e)
  | .ok options =>
    match env.remoteList options with
    | .error e => (setReadiness repo false ReconciliationFailedReason e, store, some e)
    | .ok tags => scanPostList env repo ref store tags

/-- The deferred status-patch closure of the second variant's Reconcile
(lines 743-760), restricted to its effect on the status fields: a
pending reconcile-request token is recorded on every pass reaching the
deferred patch, whatever the scan did. -/
def consumeReconcileReq (repo : ImageRepository) : ImageRepository :=
  match repo.reconcileReq with
  | some token =>
    { repo with status := { repo.status with lastHandledReconcileRequest := token } }
  | none => repo

/- ### Concrete fixtures used by witnesses and counterexamples -/

/-- A database state: canonical name to tag list. -/
abbrev StoreL := List (String × List String)

/-- A repository that has never been scanned. -/
def repoNever : ImageRepository :=
  { spec := { image := "docker.io/library/alpine", interval := 60 * timeSecond,
              secretRef := none, certSecretRef := none, serviceAccountName := "",
              exclusionList := [], suspend := false }
    status := { canonicalImageName := "docker.io/library/alpine",
                lastScanResult := none, lastHandledReconcileRequest := "", ready := none }
    reconcileReq := none }

/-- A repository scanned at time 1000 s, with a one-minute interval. -/
def repoScanned : ImageRepository :=
  { spec := { image := "docker.io/library/alpine", interval := 60 * timeSecond,
              secretRef := none, certSecretRef := none, serviceAccountName := "",
              exclusionList := [], suspend := false }
    status := { canonicalImageName := "docker.io/library/alpine",
                lastScanResult := some { tagCount := 1, scanTime := 1000 * timeSecond },
                lastHandledReconcileRequest := "", ready := none }
    reconcileReq := none }

/-- The scanned repository with a pending reconcile-request token. -/
def repoWithToken : ImageRepository :=
  { repoScanned with reconcileReq := some "req-1" }

/-- A database holding one tag for every name. -/
def dbOne : String → Except String (List String) := fun _ => .ok ["v1.0.0"]

/-- A database failing every read. -/
def dbErr : String → Except String (List String) := fun _ => .error "db unavailable"

/-- The parsed reference of the fixture image. -/
def refAlpine : ParsedRef :=
  { registryStr := "docker.io", repositoryStr := "library/alpine", tag := none }

/-- A scan environment whose registry listing fails. -/
def envListErr : ScanEnv StoreL :=
  { getSecret := fun n => .error ("secret " ++ n ++ " not found")
    decode := fun _ => .ok []
    login := .ok none
    getServiceAccount := fun n => .error ("serviceaccount " ++ n ++ " not found")
    k8schain := fun _ => .ok "chain"
    keyPair := fun c k => .ok (c ++ k)
    sysPool := .ok []
    appendPEM := fun p c => p ++ [c]
    remoteList := fun _ => .error "boom"
    compile := cosignCompile
    setTags := fun st n ts => .ok ((n, ts) :: st)
    timeNow := 0 }

/-- A secret holding only the `keyFile` key. -/
def keyOnlySecret : Secret :=
  { name := "creds", type := "Opaque", data := [(ClientKey, "KEYPEM")] }

/-- A secret holding only the `certFile` key. -/
def certOnlySecret : Secret :=
  { name := "creds", type := "Opaque", data := [(ClientCert, "CERTPEM")] }

/- ### Claims about the scan scheduler -/

/-- C1: a repository whose status has no lastScanResult is due for every
value of now and every database state, with recommended wait equal to
the full configured scan interval. -/
theorem shouldScan_never_scanned (db : String → Except String (List String))
    (repo : ImageRepository) (now : Int)
    (h : repo.status.lastScanResult = none) :
    shouldScan1 db repo now = (true, repo.spec.interval, none) := by
  simp [shouldScan1, h]

/-- C1 witness: the concrete never-scanned repository with its one-minute
interval. -/
theorem shouldScan_never_scanned_witness :
    repoNever.status.lastScanResult = none ∧
    shouldScan1 dbOne repoNever 12345 = (true, 60 * timeSecond, none) :=
  ⟨rfl, shouldScan_never_scanned dbOne repoNever 12345 rfl⟩

/-- C2: with a last scan at time T, no pending reconcile-request token
and a nonempty stored tag list, the remainder interval - (now - T) rules
the decision: below one second (negative included) the repository is due
now, otherwise it is not due and the wait is the remainder; in
particular at T + interval - 2s it is not due with wait 2s, and at
T + interval + 1s it is due. -/
theorem shouldScan_interval_rule (db : String → Except String (List String))
    (repo : ImageRepository) (T : Int) (c : Nat) (tags : List String)
    (hres : repo.status.lastScanResult = some { tagCount := c, scanTime := T })
    (hreq : ∀ v, repo.reconcileReq = some v → v = repo.status.lastHandledReconcileRequest)
    (hdb : db repo.status.canonicalImageName = .ok tags)
    (htags : tags ≠ []) :
    shouldScan1 db repo (T + repo.spec.interval - 2 * timeSecond)
      = (false, 2 * timeSecond, none) ∧
    shouldScan1 db repo (T + repo.spec.interval + timeSecond)
      = (true, repo.spec.interval, none) ∧
    (∀ now, repo.spec.interval - (now - T) < timeSecond →
      shouldScan1 db repo now = (true, repo.spec.interval, none)) ∧
    (∀ now, timeSecond ≤ repo.spec.interval - (now - T) →
      shouldScan1 db repo now = (false, repo.spec.interval - (now - T), none)) := by
  have hlen : (tags.length == 0) = false := by
    cases tags with
    | nil => exact absurd rfl htags
    | cons a l => rfl
  have key : ∀ now : Int, shouldScan1 db repo now =
      if repo.spec.interval - (now - T) < timeSecond
      then (true, repo.spec.interval, none)
      else (false, repo.spec.interval - (now - T), none) := by
    intro now
    cases hr : repo.reconcileReq with
    | none => simp [shouldScan1, hres, hr, hdb, hlen]
    | some v =>
      have hv := hreq v hr
      simp [shouldScan1, hres, hr, hdb, hlen, hv]
  refine ⟨?_, ?_, ?_, ?_⟩
  · rw [key]
    have e1 : repo.spec.interval - (T + repo.spec.interval - 2 * timeSecond - T)
        = 2 * timeSecond := by ring
    rw [e1, if_neg (by norm_num [timeSecond])]
  · rw [key]
    have e2 : repo.spec.interval - (T + repo.spec.interval + timeSecond - T)
        = -timeSecond := by ring
    rw [e2, if_pos (by norm_num [timeSecond])]
  · intro now h
    rw [key, if_pos h]
  · intro now h
    rw [key, if_neg (not_lt.mpr h)]

/-- C2 witness: the concrete scanned repository at the two probe
times. -/
theorem shouldScan_interval_rule_witness :
    (["v1.0.0"] : List String) ≠ [] ∧
    shouldScan1 dbOne repoScanned (1000 * timeSecond + 60 * timeSecond - 2 * timeSecond)
      = (false, 2 * timeSecond, none) ∧
    shouldScan1 dbOne repoScanned (1000 * timeSecond + 60 * timeSecond + timeSecond)
      = (true, 60 * timeSecond, none) := by
  have h := shouldScan_interval_rule dbOne repoScanned (1000 * timeSecond) 1 ["v1.0.0"]
    rfl (by intro v hv; cases hv) rfl (by decide)
  exact ⟨by decide, h.1, h.2.1⟩

/-- C3: with a recorded last scan and no pending reconcile-request
token, a database read error makes shouldScan return due=false together
with that error; the error is never turned into a due result. -/
theorem shouldScan_db_error (db : String → Except String (List String))
    (repo : ImageRepository) (now : Int) (e : String) (lsr : ScanResult)
    (hres : repo.status.lastScanResult = some lsr)
    (hreq : ∀ v, repo.reconcileReq = some v → v = repo.status.lastHandledReconcileRequest)
    (hdb : db repo.status.canonicalImageName = .error e) :
    shouldScan1 db repo now = (false, repo.spec.interval, some e) := by
  cases hr : repo.reconcileReq with
  | none => simp [shouldScan1, hres, hr, hdb]
  | some v =>
    have hv := hreq v hr
    simp [shouldScan1, hres, hr, hdb, hv]

/-- C3 witness: the concrete scanned repository over the failing
database. -/
theorem shouldScan_db_error_witness :
    repoScanned.status.lastScanResult = some { tagCount := 1, scanTime := 1000 * timeSecond } ∧
    shouldScan1 dbErr repoScanned 0 = (false, 60 * timeSecond, some "db unavailable") :=
  ⟨rfl, shouldScan_db_error dbErr repoScanned 0 "db unavailable"
    { tagCount := 1, scanTime := 1000 * timeSecond } rfl (by intro v hv; cases hv) rfl⟩

/- ### Claims about parsing and normalization -/

/-- C4: the plain image reference parses; a URL scheme prefix and a tag
suffix are rejected with errors naming the offending substring; in
general every input containing the scheme separator is rejected naming
its scheme, and every parsed input whose name keeps a colon after the
registry prefix is stripped is rejected naming the tag. -/
theorem parseImageReference_checks :
    parseImageReference "docker.io/library/alpine"
      = .ok { registryStr := "docker.io", repositoryStr := "library/alpine", tag := none } ∧
    parseImageReference "https://docker.io/library/alpine" = .error (schemeErrMsg "https") ∧
    parseImageReference "docker.io/library/alpine:latest" = .error (tagErrMsg "latest") ∧
    (∀ url, (goSplit url "://").length > 1 →
      parseImageReference url = .error (schemeErrMsg ((goSplit url "://").headD ""))) ∧
    (∀ url ref, (goSplit url "://").length ≤ 1 →
      parseReferenceModel url = .ok ref →
      (goSplit (goTrimPre url ref.registryStr) ":").length > 1 →
      parseImageReference url
        = .error (tagErrMsg ((goSplit (goTrimPre url ref.registryStr) ":")[1]?.getD ""))) := by
  refine ⟨by rfl, by rfl, by rfl, ?_, ?_⟩
  · intro url h
    simp only [parseImageReference]
    rw [if_pos h]
  · intro url ref h1 h2 h3
    simp only [parseImageReference]
    rw [if_neg (not_lt.mpr h1), h2]
    simp only []
    rw [if_pos h3]

/-- C4 witness: the general scheme rejection applied at a concrete
scheme-carrying input. -/
theorem parseImageReference_checks_witness :
    (goSplit "oci://example.com/app" "://").length > 1 ∧
    parseImageReference "oci://example.com/app" = .error (schemeErrMsg "oci") :=
  ⟨by decide, parseImageReference_checks.2.2.2.1 "oci://example.com/app" (by decide)⟩

/-- C5: registry-auth keys normalize to the bare host: the three forms
of the Docker Hub key all give index.docker.io, and a bare scheme with
no host is an error. -/
theorem getURLHost_normalization :
    getURLHost "https://index.docker.io/v2/" = .ok "index.docker.io" ∧
    getURLHost "index.docker.io" = .ok "index.docker.io" ∧
    getURLHost "http://index.docker.io" = .ok "index.docker.io" ∧
    getURLHost "http://" = .error "Empty url" ∧
    getURLHost "https://" = .error "Empty url" :=
  ⟨rfl, rfl, rfl, rfl, rfl⟩

/- ### Claims about exclusion filtering -/

/-- The filtering loop under a total compile oracle concatenates the
independent per-pattern passes over the original tag list. -/
theorem applyExclusionPatterns_concat (m : String → String → Bool)
    (patterns : List String) : ∀ tags acc : List String,
    applyExclusionPatterns (fun p => some (m p)) patterns tags acc
      = .ok (acc ++ patterns.flatMap (fun p => tags.filter (fun t => !(m p t)))) := by
  induction patterns with
  | nil => intro tags acc; simp [applyExclusionPatterns]
  | cons p ps ih =>
    intro tags acc
    simp [applyExclusionPatterns, ih, List.flatMap_cons, List.append_assoc]

/-- Occurrence count in a filtered list. -/
theorem count_filter_ite (f : String → Bool) (t : String) (tags : List String) :
    (tags.filter f).count t = if f t then tags.count t else 0 := by
  induction tags with
  | nil => simp
  | cons a l ih =>
    cases hfa : f a with
    | true =>
      by_cases hat : a = t
      · subst hat; simp [List.filter_cons, hfa, List.count_cons, ih]
      · simp [List.filter_cons, hfa, List.count_cons, hat, ih]
    | false =>
      by_cases hat : a = t
      · subst hat; simp [List.filter_cons, hfa, ih]
      · have hta : ¬t = a := fun hh => hat hh.symm
        simp [List.filter_cons, hfa, List.count_cons, hta, ih]

/-- C6: an empty exclusion list is defaulted to the single cosign
pattern, under which the example tag list keeps exactly the
non-signature tags; in general every pattern filters the original list
independently, the per-pattern results are concatenated, and a tag
appears in the result once per surviving pattern (times its
multiplicity in the input). -/
theorem scan_exclusion_filtering :
    effectiveExclusionList [] = [CosignObjectRegex] ∧
    applyExclusionPatterns cosignCompile (effectiveExclusionList [])
      ["v1.0.0", "v1.0.0.sig", "latest"] [] = .ok ["v1.0.0", "latest"] ∧
    (∀ (m : String → String → Bool) (patterns tags : List String),
      applyExclusionPatterns (fun p => some (m p)) patterns tags []
        = .ok (patterns.flatMap (fun p => tags.filter (fun t => !(m p t))))) ∧
    (∀ (m : String → String → Bool) (patterns tags : List String) (t : String),
      (patterns.flatMap (fun p => tags.filter (fun t2 => !(m p t2)))).count t
        = (patterns.filter (fun p => !(m p t))).length * tags.count t) := by
  refine ⟨by rfl, by rfl, ?_, ?_⟩
  · intro m patterns tags
    simpa using applyExclusionPatterns_concat m patterns tags []
  · intro m patterns tags t
    induction patterns with
    | nil => simp
    | cons p ps ih =>
      cases hm : m p t with
      | true =>
        simp [List.flatMap_cons, List.count_append, count_filter_ite, List.filter_cons, hm, ih]
      | false =>
        simp [List.flatMap_cons, List.count_append, count_filter_ite, List.filter_cons, hm, ih,
          Nat.add_mul, Nat.one_mul]
        exact Nat.add_comm _ _

/- ### Claims about the scan pass -/

/-- C7: when the pre-listing phase succeeds and the registry listing
fails, scan returns the listing error, marks the repository not-ready
with the error text, and leaves both the database state and the
lastScanResult (scan count and timestamp) untouched. -/
theorem scan_listing_error_atomic {σ : Type} (env : ScanEnv σ) (repo : ImageRepository)
    (ref : ParsedRef) (store : σ) (opts : List RemoteOption) (e : String)
    (hpre : scanPreList env repo ref = .ok opts)
    (hlist : env.remoteList opts = .error e) :
    scan1 env repo ref store
      = (setReadiness repo false ReconciliationFailedReason e, store, some e) ∧
    (scan1 env repo ref store).1.status.lastScanResult = repo.status.lastScanResult := by
  have h1 : scan1 env repo ref store
      = (setReadiness repo false ReconciliationFailedReason e, store, some e) := by
    simp [scan1, hpre, hlist]
  exact ⟨h1, by rw [h1]; rfl⟩

/-- C7 witness: the listing-failure environment over the scanned
repository, with an anonymous pre-listing phase. -/
theorem scan_listing_error_atomic_witness :
    scanPreList envListErr repoScanned refAlpine = .ok [RemoteOption.withContext] ∧
    scan1 envListErr repoScanned refAlpine ([] : StoreL)
      = (setReadiness repoScanned false ReconciliationFailedReason "boom",
         ([] : StoreL), some "boom") :=
  ⟨rfl, (scan_listing_error_atomic envListErr repoScanned refAlpine []
      [RemoteOption.withContext] "boom" rfl rfl).1⟩

/-- C8 counterexample: a secret carrying keyFile without certFile -
exactly one of the pair - yields a transport with no error and no client
certificate, so an error on every single-key secret is not what the code
does. -/
theorem transport_key_only_no_error :
    keyOnlySecret.get? ClientKey = some "KEYPEM" ∧
    keyOnlySecret.get? ClientCert = none ∧
    transportFromSecret (fun c k => .ok (c ++ k)) (.ok []) (fun p c => p ++ [c]) keyOnlySecret
      = .ok { tlsClientConfig := { certificates := [], rootCAs := none } } :=
  ⟨rfl, rfl, rfl⟩

/-- C8 amended: a client certificate is configured only when both
certFile and keyFile are present; certFile without keyFile is an error,
keyFile without certFile is silently ignored; and when caFile is present
the root pool of a successful transport is the system pool augmented
with that CA. -/
theorem transportFromSecret_amended (keyPair : String → String → Except String Cert)
    (sysPool0 : CertPool) (appendPEM : CertPool → String → CertPool) (s : Secret) :
    (∀ tr, transportFromSecret keyPair (.ok sysPool0) appendPEM s = .ok tr →
      tr.tlsClientConfig.certificates ≠ [] →
      (s.get? ClientCert).isSome ∧ (s.get? ClientKey).isSome) ∧
    (∀ c, s.get? ClientCert = some c → s.get? ClientKey = none →
      transportFromSecret keyPair (.ok sysPool0) appendPEM s
        = .error "client certificate found, but no key") ∧
    (∀ ca tr, s.get? CACert = some ca →
      transportFromSecret keyPair (.ok sysPool0) appendPEM s = .ok tr →
      tr.tlsClientConfig.rootCAs = some (appendPEM sysPool0 ca)) := by
  refine ⟨?_, ?_, ?_⟩
  · intro tr hok hne
    cases hc : s.get? ClientCert with
    | some c =>
      cases hk : s.get? ClientKey with
      | none => simp [transportFromSecret, hc, hk] at hok
      | some k => exact ⟨by simp [hc], by simp [hk]⟩
    | none =>
      exfalso
      apply hne
      cases hca : s.get? CACert with
      | none =>
        simp [transportFromSecret, hc, hca] at hok
        rw [← hok]
      | some ca =>
        simp [transportFromSecret, hc, hca] at hok
        rw [← hok]
  · intro c hc hk
    simp [transportFromSecret, hc, hk]
  · intro ca tr hca hok
    cases hc : s.get? ClientCert with
    | none =>
      simp [transportFromSecret, hc, hca] at hok
      rw [← hok]
    | some c =>
      cases hk : s.get? ClientKey with
      | none => simp [transportFromSecret, hc, hk] at hok
      | some k =>
        cases hkp : keyPair c k with
        | error e => simp [transportFromSecret, hc, hk, hkp] at hok
        | ok cert =>
          simp [transportFromSecret, hc, hk, hkp, hca] at hok
          rw [← hok]

/-- C8 amended witness: the certFile-only secret is rejected. -/
theorem transportFromSecret_amended_witness :
    certOnlySecret.get? ClientCert = some "CERTPEM" ∧
    certOnlySecret.get? ClientKey = none ∧
    transportFromSecret (fun c k => .ok (c ++ k)) (.ok []) (fun p c => p ++ [c]) certOnlySecret
      = .error "client certificate found, but no key" :=
  ⟨rfl, rfl, (transportFromSecret_amended (fun c k => .ok (c ++ k)) [] (fun p c => p ++ [c])
      certOnlySecret).2.1 "CERTPEM" rfl rfl⟩

/-- C9 counterexample: in the first variant a scan attempted while the
token req-1 is pending fails at the registry listing and returns with
lastHandledReconcileRequest still empty: the token is not recorded on
that pass. -/
theorem scan_failed_pass_token_unrecorded :
    repoWithToken.reconcileReq = some "req-1" ∧
    (scan1 envListErr repoWithToken refAlpine ([] : StoreL)).2.2 = some "boom" ∧
    (scan1 envListErr repoWithToken refAlpine ([] : StoreL)).1.status.lastHandledReconcileRequest
      = "" :=
  ⟨rfl, rfl, rfl⟩

/-- C9 amended: the second variant's deferred status patch records a
pending token on every pass reaching it; in the first variant the scan
records the token exactly when it returns without error, so a failed
scan leaves it unrecorded. -/
theorem reconcileReq_consumption (repo : ImageRepository) (token : String)
    (h : repo.reconcileReq = some token) :
    (consumeReconcileReq repo).status.lastHandledReconcileRequest = token ∧
    (∀ {σ : Type} (env : ScanEnv σ) (ref : ParsedRef) (store : σ),
      (scan1 env repo ref store).2.2 = none →
      (scan1 env repo ref store).1.status.lastHandledReconcileRequest = token) := by
  constructor
  · simp [consumeReconcileReq, h]
  · intro σ env ref store hok
    cases hpre : scanPreList env repo ref with
    | error pe =>
      obtain ⟨repoE, e⟩ := pe
      simp [scan1, hpre] at hok
    | ok opts =>
      cases hlist : env.remoteList opts with
      | error e => simp [scan1, hpre, hlist] at hok
      | ok tags =>
        cases hfilt : applyExclusionPatterns env.compile
            (effectiveExclusionList repo.spec.exclusionList) tags [] with
        | error e => simp [scan1, scanPostList, hpre, hlist, hfilt] at hok
        | ok filteredTags =>
          cases hset : env.setTags store ref.contextString filteredTags with
          | error e => simp [scan1, scanPostList, hpre, hlist, hfilt, hset] at hok
          | ok store2 =>
            simp [scan1, scanPostList, hpre, hlist, hfilt, hset, setReadiness, h]

/-- C9 amended witness: a pending token is recorded by the deferred
patch of the second variant. -/
theorem reconcileReq_consumption_witness :
    repoWithToken.reconcileReq = some "req-1" ∧
    (consumeReconcileReq repoWithToken).status.lastHandledReconcileRequest = "req-1" :=
  ⟨rfl, (reconcileReq_consumption repoWithToken "req-1" rfl).1⟩

/-- C10: the shouldScan implementations of the two controller variants
return the same (due, wait, error) triple on every repository, time and
database state. -/
theorem shouldScan_variants_agree (db : String → Except String (List String))
    (repo : ImageRepository) (now : Int) :
    shouldScan1 db repo now = shouldScan2 db repo now := rfl

end IRC
